import Mathlib

/-!
# Verification of the ai_robot chat client core

Shallow embedding of the stream-decoding loop, the conversation store and the
chat session controller of the `ai_robot` repository (`src/api.ts` and the
`ChatInterface` component), together with proofs and refutations of the
frozen behavioural claims.

Strings are modelled as lists of Unicode code points (`Str`); JavaScript
string primitives (`trim`, `slice`, `split`, `startsWith`) are embedded as
the corresponding list operations.  Bytes are natural numbers below 256.
-/

namespace AiRobot

/-- A JavaScript string, modelled as its list of Unicode code points.
(JS strings are UTF-16 sequences; all string literals appearing in the
source and in the claims consist of BMP scalar values, for which the two
views agree position by position.) -/
abbrev Str := List Nat

/-- Code points of a Lean string literal, used to transcribe the string
literals appearing in the source. -/
def str (s : String) : Str := s.data.map Char.toNat

/-- UTF-8 encoding of one code point (model of the network-side encoder
producing the response body bytes). -/
def encodeChar (c : Nat) : List Nat :=
  if c < 0x80 then [c]
  else if c < 0x800 then [0xC0 + c / 64, 0x80 + c % 64]
  else if c < 0x10000 then [0xE0 + c / 4096, 0x80 + c / 64 % 64, 0x80 + c % 64]
  else [0xF0 + c / 262144, 0x80 + c / 4096 % 64, 0x80 + c / 64 % 64, 0x80 + c % 64]

/-- UTF-8 encoding of a text, the byte form of an SSE payload on the wire. -/
def utf8Encode (s : Str) : List Nat := (s.map encodeChar).flatten

/-- Expected total length of a UTF-8 byte group, from its lead byte.
(Stray continuation bytes are given length 1; they never arise when the
input is the encoding of a text, which is the only case the claims reach.) -/
def expLen (b : Nat) : Nat :=
  if b < 0xC0 then 1 else if b < 0xE0 then 2 else if b < 0xF0 then 3 else 4

/-- Value of a complete UTF-8 byte group. -/
def decodeGroup : List Nat → Nat
  | [b] => b
  | [b, b1] => (b - 0xC0) * 64 + (b1 - 0x80)
  | [b, b1, b2] => (b - 0xE0) * 4096 + (b1 - 0x80) * 64 + (b2 - 0x80)
  | [b, b1, b2, b3] => (b - 0xF0) * 262144 + (b1 - 0x80) * 4096 + (b2 - 0x80) * 64 + (b3 - 0x80)
  | _ => 0xFFFD

/-- Model of `TextDecoder.decode(value, { stream: true })`: consume the bytes
of one chunk given the undecoded tail `pend` carried over from the previous
chunk, returning the decoded text and the new undecoded tail.  Bytes are
collected until a group is complete (its length reaches `expLen` of its lead
byte), at which point the group's code point is emitted. -/
def decodeBytes : List Nat → List Nat → Str × List Nat
  | pend, [] => ([], pend)
  | pend, b :: bs =>
    let g := pend ++ [b]
    if g.length = expLen (g.headD 0) then
      match decodeBytes [] bs with
      | (out, p) => (decodeGroup g :: out, p)
    else decodeBytes g bs

/-- Model of `buffer.split('\n')` (JavaScript `String.prototype.split` with a
one-character separator): the list of `'\n'`-free segments, always nonempty,
whose join interleaved with `'\n'` is the input. -/
def splitNl : Str → List Str
  | [] => [[]]
  | c :: cs =>
    if c = 10 then [] :: splitNl cs
    else
      match splitNl cs with
      | [] => [[c]]
      | l :: ls => (c :: l) :: ls

theorem splitNl_ne_nil (l : Str) : splitNl l ≠ [] := by
  cases l with
  | nil => simp [splitNl]
  | cons c cs =>
    simp only [splitNl]
    split
    · simp
    · split <;> simp

/-- `decodeBytes` is compositional in its chunk argument: feeding `xs ++ ys`
is the same as feeding `xs` and then feeding `ys` with the carried tail. -/
theorem decodeBytes_append (pend xs ys : List Nat) :
    decodeBytes pend (xs ++ ys) =
      ((decodeBytes pend xs).1 ++ (decodeBytes (decodeBytes pend xs).2 ys).1,
       (decodeBytes (decodeBytes pend xs).2 ys).2) := by
  induction xs generalizing pend with
  | nil => simp [decodeBytes]
  | cons b bs ih =>
    simp only [List.cons_append, decodeBytes]
    split
    · simp only [List.append_eq]
      rw [ih []]
      simp
    · exact ih (pend ++ [b])

theorem splitNl_cons_newline (cs : Str) : splitNl (10 :: cs) = [] :: splitNl cs := by
  simp [splitNl]

theorem splitNl_cons_ne {c : Nat} (cs : Str) (hc : c ≠ 10) {s : Str} {S : List Str}
    (hS : splitNl cs = s :: S) : splitNl (c :: cs) = (c :: s) :: S := by
  simp [splitNl, hc, hS]

/-- Splitting on newline commutes with concatenation: the split of `xs ++ ys`
is the complete lines of `xs` followed by the split of the held-back final
fragment of `xs` glued to `ys`.  This is the invariant behind the rolling
buffer of the read loop. -/
theorem splitNl_append (xs ys : Str) :
    splitNl (xs ++ ys) =
      (splitNl xs).dropLast ++ splitNl ((splitNl xs).getLastD [] ++ ys) := by
  induction xs with
  | nil => simp [splitNl]
  | cons c cs ih =>
    rcases hS : splitNl cs with _ | ⟨s, S'⟩
    · exact absurd hS (splitNl_ne_nil cs)
    rw [hS] at ih
    by_cases hc : c = 10
    · subst hc
      rw [List.cons_append, splitNl_cons_newline, splitNl_cons_newline, ih, hS]
      cases S' with
      | nil => simp
      | cons s2 S'' => simp
    · cases S' with
      | nil =>
        simp only [List.dropLast_single, List.nil_append, List.getLastD_eq_getLast?,
          List.getLast?_singleton, Option.getD_some] at ih
        rcases hT : splitNl (s ++ ys) with _ | ⟨t, T'⟩
        · exact absurd hT (splitNl_ne_nil _)
        rw [List.cons_append, splitNl_cons_ne _ hc (ih.trans hT), splitNl_cons_ne _ hc hS]
        have hT2 : splitNl (c :: (s ++ ys)) = (c :: t) :: T' :=
          splitNl_cons_ne _ hc hT
        simp [hT2]
      | cons s2 S'' =>
        obtain ⟨g, hg⟩ : ∃ g, (s2 :: S'').getLast? = some g :=
          ⟨_, List.getLast?_eq_getLast _ (by simp)⟩
        rw [List.cons_append, splitNl_cons_ne _ hc hS]
        rcases hW : splitNl (cs ++ ys) with _ | ⟨w, W'⟩
        · exact absurd hW (splitNl_ne_nil _)
        rw [splitNl_cons_ne _ hc hW]
        rw [ih] at hW
        simp only [List.dropLast_cons₂, List.cons_append] at hW ⊢
        simp only [List.getLastD_eq_getLast?, List.getLast?_cons_cons, hg,
          Option.getD_some] at hW ⊢
        injection hW with hw1 hw2
        rw [← hw1, ← hw2]

/-- Every segment produced by `splitNl` is newline-free. -/
theorem splitNl_mem_no_newline (l : Str) :
    ∀ x ∈ splitNl l, 10 ∉ x := by
  induction l with
  | nil => simp [splitNl]
  | cons c cs ih =>
    by_cases hc : c = 10
    · subst hc
      rw [splitNl_cons_newline]
      intro x hx
      rcases List.mem_cons.mp hx with hx1 | hx1
      · simp [hx1]
      · exact ih x hx1
    · rcases hS : splitNl cs with _ | ⟨s, S'⟩
      · exact absurd hS (splitNl_ne_nil cs)
      rw [splitNl_cons_ne _ hc hS]
      intro x hx
      rcases List.mem_cons.mp hx with hx1 | hx1
      · subst hx1
        intro hmem
        rcases List.mem_cons.mp hmem with h10 | h10
        · exact hc h10.symm
        · exact ih s (hS ▸ List.mem_cons_self _ _) h10
      · exact ih x (hS ▸ List.mem_cons_of_mem _ hx1)

/-- A newline-free text splits into the single segment it is. -/
theorem splitNl_eq_single (l : Str) (h : 10 ∉ l) : splitNl l = [l] := by
  induction l with
  | nil => simp [splitNl]
  | cons c cs ih =>
    have hc : c ≠ 10 := fun hc => h (hc ▸ List.mem_cons_self _ _)
    have hcs : 10 ∉ cs := fun hm => h (List.mem_cons_of_mem _ hm)
    simp [splitNl, if_neg hc, ih hcs]

/-- The held-back fragment (last segment of a split) is newline-free, hence
splits into itself: the rolling-buffer invariant is maintained. -/
theorem splitNl_getLastD (l : Str) :
    splitNl ((splitNl l).getLastD []) = [(splitNl l).getLastD []] := by
  apply splitNl_eq_single
  rcases hS : splitNl l with _ | ⟨s, S'⟩
  · exact absurd hS (splitNl_ne_nil l)
  rcases List.mem_cons.mp (List.getLastD_mem_cons (s :: S') []) with h | h
  · rw [h]
    simp
  · exact splitNl_mem_no_newline l _ (by rw [hS]; exact h)

/-! ## JSON (model of the `JSON.parse` platform builtin)

The stream loops call `JSON.parse` on each frame payload and read
`choices[0]?.delta?.content`, converting any parse error or missing field
into skipping the line.  We model `JSON.parse` by an executable recursive
descent parser over code points.  Numeric values are recorded as the integer
part only and escape handling covers the JSON escapes (`\uXXXX` as a single
code unit); neither simplification is observable by any claim, which only
inspect string-valued `content` fields. -/

inductive Json where
  | jnull
  | jbool (b : Bool)
  | jnum (n : Int)
  | jstr (s : Str)
  | jarr (elems : List Json)
  | jobj (fields : List (Str × Json))

def isJsonWs (c : Nat) : Bool := c == 32 || c == 9 || c == 10 || c == 13

def skipWs (s : Str) : Str := s.dropWhile isJsonWs

def isDigit (c : Nat) : Bool := decide (48 ≤ c ∧ c ≤ 57)

def hexVal (c : Nat) : Option Nat :=
  if 48 ≤ c ∧ c ≤ 57 then some (c - 48)
  else if 97 ≤ c ∧ c ≤ 102 then some (c - 87)
  else if 65 ≤ c ∧ c ≤ 70 then some (c - 55)
  else none

def escChar (e : Nat) : Option Nat :=
  if e = 34 then some 34
  else if e = 92 then some 92
  else if e = 47 then some 47
  else if e = 98 then some 8
  else if e = 102 then some 12
  else if e = 110 then some 10
  else if e = 114 then some 13
  else if e = 116 then some 9
  else none

/-- Parse the body of a JSON string literal (after the opening quote),
returning the decoded text and the input after the closing quote.  The fuel
dominates the input length, so `parseStrLit` below never exhausts it. -/
def parseStringBody : Nat → Str → Option (Str × Str)
  | 0, _ => none
  | _, [] => none
  | fuel + 1, c :: rest =>
    if c = 34 then some ([], rest)
    else if c = 92 then
      match rest with
      | 117 :: h1 :: h2 :: h3 :: h4 :: rest2 =>
        match hexVal h1, hexVal h2, hexVal h3, hexVal h4, parseStringBody fuel rest2 with
        | some a, some b, some c2, some d, some (s, r) =>
          some ((((a * 16 + b) * 16 + c2) * 16 + d) :: s, r)
        | _, _, _, _, _ => none
      | e :: rest2 =>
        match escChar e, parseStringBody fuel rest2 with
        | some ch, some (s, r) => some (ch :: s, r)
        | _, _ => none
      | [] => none
    else
      match parseStringBody fuel rest with
      | some (s, r) => some (c :: s, r)
      | none => none

/-- Parse a JSON string literal body with sufficient fuel. -/
def parseStrLit (s : Str) : Option (Str × Str) := parseStringBody (s.length + 1) s

def digitsToNat (ds : Str) : Nat := ds.foldl (fun a c => a * 10 + (c - 48)) 0

/-- Parse a JSON number, recording only its integer part. -/
def parseNumber (s : Str) : Option (Json × Str) :=
  let (neg, s1) : Bool × Str := match s with | 45 :: r => (true, r) | _ => (false, s)
  let ds := s1.takeWhile isDigit
  let s2 := s1.dropWhile isDigit
  if ds = [] then none
  else
    let n : Int := if neg then -(digitsToNat ds : Int) else (digitsToNat ds : Int)
    let s3 : Option Str :=
      match s2 with
      | 46 :: r => if r.takeWhile isDigit = [] then none else some (r.dropWhile isDigit)
      | _ => some s2
    match s3 with
    | none => none
    | some s4 =>
      match s4 with
      | 101 :: r | 69 :: r =>
        let r2 := match r with | 43 :: r1 => r1 | 45 :: r1 => r1 | _ => r
        if r2.takeWhile isDigit = [] then none
        else some (.jnum n, r2.dropWhile isDigit)
      | _ => some (.jnum n, s4)

/-- Mode of the recursive descent: a single value, the elements of an array
(after `[`), or the members of an object (after `{`).  `allowEnd` is true
when the closing bracket may come next (i.e. not right after a comma). -/
inductive PMode where
  | value
  | elems (allowEnd : Bool)
  | fields (allowEnd : Bool)

/-- Recursive descent over code points; in mode `elems`/`fields` the result
value is the `.jarr`/`.jobj` of the remaining elements/members.  Structural
recursion on the fuel keeps the definition kernel-reducible. -/
def parseJ : Nat → PMode → Str → Option (Json × Str)
  | 0, _, _ => none
  | fuel + 1, .value, s =>
    match skipWs s with
    | [] => none
    | c :: rest =>
      if c = 34 then
        match parseStrLit rest with
        | some (t, r) => some (.jstr t, r)
        | none => none
      else if c = 123 then parseJ fuel (.fields true) rest
      else if c = 91 then parseJ fuel (.elems true) rest
      else if c = 116 then
        match rest with
        | 114 :: 117 :: 101 :: r => some (.jbool true, r)
        | _ => none
      else if c = 102 then
        match rest with
        | 97 :: 108 :: 115 :: 101 :: r => some (.jbool false, r)
        | _ => none
      else if c = 110 then
        match rest with
        | 117 :: 108 :: 108 :: r => some (.jnull, r)
        | _ => none
      else parseNumber (c :: rest)
  | fuel + 1, .elems allowEnd, s =>
    match skipWs s with
    | 93 :: r => if allowEnd then some (.jarr [], r) else none
    | _ =>
      match parseJ fuel .value s with
      | some (v, r) =>
        match skipWs r with
        | 44 :: r2 =>
          match parseJ fuel (.elems false) r2 with
          | some (.jarr vs, r3) => some (.jarr (v :: vs), r3)
          | _ => none
        | 93 :: r2 => some (.jarr [v], r2)
        | _ => none
      | none => none
  | fuel + 1, .fields allowEnd, s =>
    match skipWs s with
    | 125 :: r => if allowEnd then some (.jobj [], r) else none
    | 34 :: r =>
      match parseStrLit r with
      | some (key, r2) =>
        match skipWs r2 with
        | 58 :: r3 =>
          match parseJ fuel .value r3 with
          | some (v, r4) =>
            match skipWs r4 with
            | 44 :: r5 =>
              match parseJ fuel (.fields false) r5 with
              | some (.jobj fs, r6) => some (.jobj ((key, v) :: fs), r6)
              | _ => none
            | 125 :: r5 => some (.jobj [(key, v)], r5)
            | _ => none
          | none => none
        | _ => none
      | none => none
    | _ => none

/-- Model of `JSON.parse`: the whole input must be one value plus trailing
whitespace.  The fuel `s.length + 1` dominates the nesting depth, every level
of which consumes at least one input character. -/
def jsonParse (s : Str) : Option Json :=
  match parseJ (s.length + 1) .value s with
  | some (j, r) => if skipWs r = [] then some j else none
  | none => none

/-- JS member access `obj[key]` on a parsed value (`undefined` is `none`).
JS keeps the last of duplicate keys. -/
def jget (j : Json) (key : Str) : Option Json :=
  match j with
  | .jobj fs => (fs.reverse.find? (fun kv => kv.1 == key)).map (·.2)
  | _ => none

/-- JS index access `arr[i]` on a parsed value. -/
def jidx (j : Json) (i : Nat) : Option Json :=
  match j with
  | .jarr xs => xs[i]?
  | _ => none

/-- The extraction `parsed.choices[0]?.delta?.content` performed on each
frame payload by both stream loops, with the enclosing try/catch turning
any failure into `none`.  Only string values reach the accumulator in the
source (the upstream protocol makes `content` a string), so non-string
`content` values are modelled as absent. -/
def contentOf (payload : Str) : Option Str :=
  match jsonParse payload with
  | none => none
  | some parsed =>
    match (jget parsed (str "choices")).bind (fun c => jidx c 0)
        |>.bind (fun c0 => jget c0 (str "delta"))
        |>.bind (fun d => jget d (str "content")) with
    | some (.jstr s) => some s
    | _ => none

/-! ## The two stream-decoding loops -/

def dataPfx : Str := str "data: "

def doneStr : Str := str "[DONE]"

/-- Per-line processing of the read loop in `handleSend` (ChatInterface,
lines 670–694): a `data: `-prefixed line other than the `[DONE]` sentinel
contributes a delta when the extracted content is a nonempty string; every
other line — including the `[DONE]` sentinel, which that loop `continue`s
past — contributes nothing.  `line.startsWith('data: ')` is embedded as
`line.take 6 = dataPfx` and `line.slice(6)` as `line.drop 6`. -/
def lineDeltaHS (line : Str) : Option Str :=
  if line.take 6 = dataPfx then
    if line.drop 6 = doneStr then none
    else
      match contentOf (line.drop 6) with
      | some c => if c = [] then none else some c
      | none => none
  else none

/-- Line-sequence semantics of the `streamChat` generator (api.ts lines
51–66): identical to `lineDeltaHS` on ordinary lines, but the `[DONE]`
sentinel `return`s from the whole generator.  Returns the yielded deltas and
whether the generator returned. -/
def scanLines : List Str → List Str × Bool
  | [] => ([], false)
  | l :: ls =>
    if l.take 6 = dataPfx ∧ l.drop 6 = doneStr then ([], true)
    else
      match lineDeltaHS l, scanLines ls with
      | some c, (ds, f) => (c :: ds, f)
      | none, r => r

/-- The rolling-buffer read loop shared by both stream consumers: decode the
chunk with carried decoder state, append the text to the buffer, split on
newline, hold back the final fragment as the new buffer.  Returns every
complete line produced, in order.  (At end of input, the held-back fragment
is dropped by both loops, as neither flushes it.) -/
def chunkLines : List Nat → Str → List (List Nat) → List Str
  | _, _, [] => []
  | pend, buf, c :: cs =>
    match decodeBytes pend c with
    | (txt, pend2) =>
      let ls := splitNl (buf ++ txt)
      ls.dropLast ++ chunkLines pend2 (ls.getLastD []) cs

/-- Ordered deltas applied by the `handleSend` read loop over a chunk
sequence, starting from decoder state `pend` and buffer `buf`. -/
def hsChunks : List Nat → Str → List (List Nat) → List Str
  | _, _, [] => []
  | pend, buf, c :: cs =>
    match decodeBytes pend c with
    | (txt, pend2) =>
      let ls := splitNl (buf ++ txt)
      ls.dropLast.filterMap lineDeltaHS ++ hsChunks pend2 (ls.getLastD []) cs

/-- Ordered deltas yielded by the `streamChat` generator over a chunk
sequence; the generator returns at the `[DONE]` sentinel, reading no
further lines. -/
def scChunks : List Nat → Str → List (List Nat) → List Str
  | _, _, [] => []
  | pend, buf, c :: cs =>
    match decodeBytes pend c with
    | (txt, pend2) =>
      let ls := splitNl (buf ++ txt)
      match scanLines ls.dropLast with
      | (ds, true) => ds
      | (ds, false) => ds ++ scChunks pend2 (ls.getLastD []) cs

theorem hsChunks_eq_chunkLines (pend : List Nat) (buf : Str) (cs : List (List Nat)) :
    hsChunks pend buf cs = (chunkLines pend buf cs).filterMap lineDeltaHS := by
  induction cs generalizing pend buf with
  | nil => simp [hsChunks, chunkLines]
  | cons c cs ih =>
    simp only [hsChunks, chunkLines]
    rcases decodeBytes pend c with ⟨txt, pend2⟩
    simp [List.filterMap_append, ih]

theorem scanLines_append (A B : List Str) :
    scanLines (A ++ B) =
      if (scanLines A).2 then scanLines A
      else ((scanLines A).1 ++ (scanLines B).1, (scanLines B).2) := by
  induction A with
  | nil => simp [scanLines]
  | cons l ls ih =>
    simp only [List.cons_append, scanLines]
    split
    · simp
    · rcases h : lineDeltaHS l with _ | c
      · simpa [h] using ih
      · rcases hA : scanLines ls with ⟨ds, f⟩
        rcases hAB : scanLines (ls ++ B) with ⟨ds2, f2⟩
        rw [hA, hAB] at ih
        cases f
        · simp only [Bool.false_eq_true, if_false] at ih
          injection ih with ih1 ih2
          simp [h, hA, hAB, ih1, ih2]
        · simp only [if_true] at ih
          injection ih with ih1 ih2
          simp [h, hA, hAB, ih1, ih2]

theorem scChunks_eq_chunkLines (pend : List Nat) (buf : Str) (cs : List (List Nat)) :
    scChunks pend buf cs = (scanLines (chunkLines pend buf cs)).1 := by
  induction cs generalizing pend buf with
  | nil => simp [scChunks, chunkLines, scanLines]
  | cons c cs ih =>
    simp only [scChunks, chunkLines]
    rcases decodeBytes pend c with ⟨txt, pend2⟩
    simp only
    rw [scanLines_append]
    rcases h : scanLines (splitNl (buf ++ txt)).dropLast with ⟨ds, f⟩
    cases f
    · simp [ih]
    · simp

/-- The rolling-buffer loop is insensitive to how the byte stream is cut
into chunks: any chunk sequence produces the same complete lines as its
concatenation delivered in one chunk.  `buf` must be a held-back fragment
(newline-free), which the loop maintains. -/
theorem chunkLines_join (cs : List (List Nat)) (pend : List Nat) (buf : Str)
    (hb : splitNl buf = [buf]) :
    chunkLines pend buf cs = chunkLines pend buf [cs.flatten] := by
  induction cs generalizing pend buf with
  | nil =>
    simp [chunkLines, decodeBytes, hb]
  | cons c cs ih =>
    simp only [List.flatten_cons, chunkLines]
    rcases h1 : decodeBytes pend c with ⟨t1, p1⟩
    rcases h2 : decodeBytes p1 cs.flatten with ⟨T2, p2⟩
    have hdec : decodeBytes pend (c ++ cs.flatten) = (t1 ++ T2, p2) := by
      rw [decodeBytes_append, h1, h2]
    rw [hdec]
    simp only
    rw [ih p1 _ (splitNl_getLastD (buf ++ t1))]
    simp only [chunkLines, h2]
    simp only [← List.append_assoc, splitNl_append (buf ++ t1) T2]
    rw [List.dropLast_append_of_ne_nil _ (splitNl_ne_nil _)]

/-! ## Claim C1: chunk-split invariance of the rolling-buffer loop -/

/-- C1: for every SSE payload and every way of splitting its UTF-8 byte
encoding into a sequence of chunks — including splits in the middle of a
multi-byte code point and in the middle of a line — the rolling-buffer loop
(decode with carried decoder state, append to buffer, split on newline, hold
back the final fragment) yields exactly the same ordered delta sequence as
the whole payload delivered as a single chunk; this holds both for the
`handleSend` read loop and for the `streamChat` generator. -/
theorem claim1_chunk_split_invariance (payload : String) (css : List (List Nat))
    (h : css.flatten = utf8Encode (str payload)) :
    hsChunks [] [] css = hsChunks [] [] [utf8Encode (str payload)] ∧
    scChunks [] [] css = scChunks [] [] [utf8Encode (str payload)] := by
  have h1 : chunkLines [] [] css = chunkLines [] [] [utf8Encode (str payload)] := by
    rw [← h]
    exact chunkLines_join css [] [] rfl
  exact ⟨by rw [hsChunks_eq_chunkLines, hsChunks_eq_chunkLines, h1],
    by rw [scChunks_eq_chunkLines, scChunks_eq_chunkLines, h1]⟩

/-- A complete streamed answer whose content frame carries the multi-byte
character `中` (three UTF-8 bytes). -/
def demoPayload : String :=
  "data: \x7b\"choices\":[\x7b\"delta\":\x7b\"content\":\"中\"\x7d\x7d]\x7d\ndata: [DONE]\n"

/-- C1 witness: splitting the bytes of `demoPayload` at offset 41 — in the
middle of the three-byte encoding of `中` and in the middle of a line —
yields the same deltas as the unsplit payload. -/
theorem claim1_witness :
    ([(utf8Encode (str demoPayload)).take 41, (utf8Encode (str demoPayload)).drop 41].flatten
        = utf8Encode (str demoPayload)) ∧
    (hsChunks [] [] [(utf8Encode (str demoPayload)).take 41, (utf8Encode (str demoPayload)).drop 41]
        = hsChunks [] [] [utf8Encode (str demoPayload)] ∧
     scChunks [] [] [(utf8Encode (str demoPayload)).take 41, (utf8Encode (str demoPayload)).drop 41]
        = scChunks [] [] [utf8Encode (str demoPayload)]) :=
  ⟨by simp, claim1_chunk_split_invariance demoPayload _ (by simp)⟩

/-! ## Claim C2: handling of the `[DONE]` sentinel -/

/-- A frame carrying delta `"Hi"`. -/
def frameHi : String := "data: \x7b\"choices\":[\x7b\"delta\":\x7b\"content\":\"Hi\"\x7d\x7d]\x7d"

/-- A frame carrying delta `"x"`. -/
def frameX : String := "data: \x7b\"choices\":[\x7b\"delta\":\x7b\"content\":\"x\"\x7d\x7d]\x7d"

/-- C2 counterexample: a single chunk in which a content frame follows the
`[DONE]` sentinel.  The claim says no delta from a line after `data: [DONE]`
is ever yielded or applied; the `handleSend` loop (which `continue`s past
the sentinel instead of terminating) applies the later delta `"x"`. -/
theorem claim2_counterexample :
    hsChunks [] [] [utf8Encode (str ("data: [DONE]\n" ++ frameX ++ "\n"))] = [str "x"] := by
  decide

theorem lineDeltaHS_done : lineDeltaHS (dataPfx ++ doneStr) = none := by decide

theorem scanLines_no_done (ls : List Str) (h : ∀ l ∈ ls, l ≠ dataPfx ++ doneStr) :
    scanLines ls = (ls.filterMap lineDeltaHS, false) := by
  induction ls with
  | nil => simp [scanLines]
  | cons l ls ih =>
    have hl : ¬(l.take 6 = dataPfx ∧ l.drop 6 = doneStr) := by
      rintro ⟨h1, h2⟩
      exact h l (List.mem_cons_self _ _) (by rw [← List.take_append_drop 6 l, h1, h2])
    simp only [scanLines, if_neg hl]
    rw [ih (fun x hx => h x (List.mem_cons_of_mem _ hx))]
    cases hld : lineDeltaHS l <;> simp [List.filterMap_cons, hld]

theorem scanLines_done (ls1 ls2 : List Str) (h : ∀ l ∈ ls1, l ≠ dataPfx ++ doneStr) :
    scanLines (ls1 ++ (dataPfx ++ doneStr) :: ls2) = (ls1.filterMap lineDeltaHS, true) := by
  rw [scanLines_append, scanLines_no_done ls1 h]
  have hdone : scanLines ((dataPfx ++ doneStr) :: ls2) = ([], true) := by
    have hc : (dataPfx ++ doneStr).take 6 = dataPfx ∧ (dataPfx ++ doneStr).drop 6 = doneStr := by
      decide
    simp [scanLines, if_pos hc]
  simp [hdone]

/-- C2 amended: once the complete line `data: [DONE]` is reached, the
`streamChat` generator terminates its yielded sequence successfully and no
delta from any later line is yielded, even if further bytes follow in the
same chunk; the `handleSend` loop, however, merely skips the sentinel line
and continues, applying the deltas of every later line as well. -/
theorem claim2_amended_done_handling (css : List (List Nat)) (ls1 ls2 : List Str)
    (hsplit : chunkLines [] [] css = ls1 ++ (dataPfx ++ doneStr) :: ls2)
    (hno : ∀ l ∈ ls1, l ≠ dataPfx ++ doneStr) :
    scChunks [] [] css = ls1.filterMap lineDeltaHS ∧
    hsChunks [] [] css = ls1.filterMap lineDeltaHS ++ ls2.filterMap lineDeltaHS := by
  constructor
  · rw [scChunks_eq_chunkLines, hsplit, scanLines_done ls1 ls2 hno]
  · rw [hsChunks_eq_chunkLines, hsplit]
    simp [List.filterMap_append, List.filterMap_cons, lineDeltaHS_done]

/-- C2 witness: on a chunk carrying a content frame, the sentinel, and a
further content frame, the generator yields only the first delta while the
`handleSend` loop applies both. -/
theorem claim2_amended_witness :
    (chunkLines [] [] [utf8Encode (str (frameHi ++ "\ndata: [DONE]\n" ++ frameX ++ "\n"))]
        = [str frameHi] ++ (dataPfx ++ doneStr) :: [str frameX]) ∧
    (scChunks [] [] [utf8Encode (str (frameHi ++ "\ndata: [DONE]\n" ++ frameX ++ "\n"))]
        = [str frameHi].filterMap lineDeltaHS ∧
     hsChunks [] [] [utf8Encode (str (frameHi ++ "\ndata: [DONE]\n" ++ frameX ++ "\n"))]
        = [str frameHi].filterMap lineDeltaHS ++ [str frameX].filterMap lineDeltaHS) :=
  ⟨by decide, claim2_amended_done_handling _ [str frameHi] [str frameX] (by decide) (by decide)⟩

/-! ## Conversation store and chat session controller

State and operations of the `ChatInterface` component.  Conversation ids are
produced by `Date.now().toString()`; decimal printing is injective, so ids
are modelled as the numeric timestamps themselves.  The several `Date.now()`
calls made inside one synchronous section of `handleSend` are modelled as a
single `now` parameter. -/

inductive Role where
  | user
  | assistant
deriving DecidableEq, Repr

structure Msg where
  role : Role
  content : Str
  timestamp : Nat
deriving DecidableEq, Repr

structure Conversation where
  id : Nat
  title : Str
  messages : List Msg
  timestamp : Nat
  lastMessage : Str
deriving DecidableEq, Repr

structure ModelSettings where
  name : Str
  baseUrl : Str
  apiKey : Str
deriving DecidableEq, Repr

/-- The component state touched by the claims: the conversation list, the
active conversation id (`null` = the new-conversation state), the displayed
message list, the input box, the in-flight flag and the error banner. -/
structure ChatState where
  conversations : List Conversation
  currentConversationId : Option Nat
  messages : List Msg
  input : Str
  isLoading : Bool
  error : Option Str
deriving DecidableEq, Repr

/-- Whitespace for `String.prototype.trim` (the code points relevant here). -/
def isWsChar (c : Nat) : Bool := c == 32 || c == 9 || c == 10 || c == 13 || c == 11 || c == 12

def trimStr (s : Str) : Str := ((s.dropWhile isWsChar).reverse.dropWhile isWsChar).reverse

def newChatTitle : Str := str "新对话"

/-- `updateConversation` (lines 440–450): rewrite the entry with the given
id in place, recomputing title (first user message, despite the variable
name `lastUserMessage` the code uses `find`), lastMessage preview and
last-update timestamp. -/
def updateConversation (convs : List Conversation) (conversationId : Nat)
    (newMessages : List Msg) (now : Nat) : List Conversation :=
  convs.map fun conv =>
    if conv.id = conversationId then
      let firstUser := newMessages.find? (fun m => m.role == Role.user)
      let title :=
        match firstUser with
        | some m => if m.content.take 15 = [] then newChatTitle else m.content.take 15
        | none => newChatTitle
      let lastMessage :=
        match newMessages.getLast? with
        | some m => m.content.take 30
        | none => []
      { conv with
        messages := newMessages,
        title := title,
        lastMessage := lastMessage,
        timestamp := now }
    else conv

/-- `selectConversation` (lines 453–460): the active id is set before the
store is consulted; the message list is copied only when the id is found;
the error banner is cleared either way. -/
def selectConversation (conversationId : Nat) (st : ChatState) : ChatState :=
  let st1 := { st with currentConversationId := some conversationId }
  match st.conversations.find? (fun c => c.id == conversationId) with
  | some conv => { st1 with messages := conv.messages, error := none }
  | none => { st1 with error := none }

/-- `renameConversation` (lines 463–467): updates the store entry's title only. -/
def renameConversation (convs : List Conversation) (conversationId : Nat)
    (newTitle : Str) : List Conversation :=
  convs.map fun conv =>
    if conv.id = conversationId then { conv with title := newTitle } else conv

/-- `createNewConversation` (lines 431–437): reset to the new-conversation
state without touching the store. -/
def createNewConversation (st : ChatState) : ChatState :=
  { st with currentConversationId := none, messages := [], input := [], error := none }

/-- `groupConversationsByTime` (lines 548–558): bucket boundaries are
`now - now % 86400000` (start of the current UTC day; `Date.now()` is UTC
epoch milliseconds) and seven days before it.  Nat subtraction agrees with
the JS arithmetic here: when `today < 7` days the JS bound is negative and
every timestamp passes `>= weekAgo`, just as every Nat passes `≥ 0`. -/
def groupConversationsByTime (convs : List Conversation) (now : Nat) :
    List Conversation × List Conversation × List Conversation :=
  let today := now - now % 86400000
  let weekAgo := today - 7 * 86400000
  (convs.filter fun conv => today ≤ conv.timestamp,
   convs.filter fun conv => weekAgo ≤ conv.timestamp ∧ conv.timestamp < today,
   convs.filter fun conv => conv.timestamp < weekAgo)

/-- The POST issued by `handleSend` (lines 616–630). -/
structure ChatRequest where
  url : Str
  model : Str
  messages : List (Role × Str)
  stream : Bool
  bearer : Str
deriving DecidableEq, Repr

/-- The values captured by the `handleSend` closure and used after the
`await` points: the conversation id, the user message, the assistant
placeholder's timestamp, the *pre-send* `messages` state (which the catch
block reads — React state captured at closure creation), and
`currentMessages = [...messages, userMessage]`. -/
structure SendCtx where
  conversationId : Nat
  userMessage : Msg
  assistantTimestamp : Nat
  messages0 : List Msg
  currentMessages : List Msg
deriving DecidableEq, Repr

def configErrMsg : Str := str "请先配置模型设置（模型名称、API Base、API Key）"

/-- The synchronous prefix of `handleSend` (lines 563–630), up to and
including issuing the fetch: guard on empty input / in-flight request, guard
on missing settings, lazily create the conversation, append the user message
and the assistant placeholder, clear the input, set loading, clear the
error, and form the request.  Returns the new state, the request issued (if
any), and the closure context for the rest of the send. -/
def handleSendStart (settings : ModelSettings) (now : Nat) (st : ChatState) :
    ChatState × Option ChatRequest × Option SendCtx :=
  if trimStr st.input = [] ∨ st.isLoading then (st, none, none)
  else if settings.name = [] ∨ settings.baseUrl = [] ∨ settings.apiKey = [] then
    ({ st with error := some configErrMsg }, none, none)
  else
    let userMessage : Msg := ⟨Role.user, trimStr st.input, now⟩
    let convsCid : List Conversation × Nat :=
      match st.currentConversationId with
      | some cid => (st.conversations, cid)
      | none =>
        (⟨now, (trimStr st.input).take 15, [], now, (trimStr st.input).take 30⟩
            :: st.conversations, now)
    let currentMessages := st.messages ++ [userMessage]
    let req : ChatRequest :=
      ⟨settings.baseUrl ++ str "/chat/completions",
       if settings.name = [] then str "glm-4-flash" else settings.name,
       currentMessages.map (fun m => (m.role, m.content)),
       true, settings.apiKey⟩
    ({ st with
       conversations := convsCid.1,
       currentConversationId := some convsCid.2,
       messages := st.messages ++ [userMessage, ⟨Role.assistant, [], now⟩],
       input := [],
       isLoading := true,
       error := none },
     some req,
     some ⟨convsCid.2, userMessage, now, st.messages, currentMessages⟩)

/-- One delta arrival (lines 678–684): extend the accumulator, replace the
assistant placeholder's content with the whole accumulator, and mirror the
message list into the store entry. -/
def applyDelta (ctx : SendCtx) (acc : Str) (d : Str) (tnow : Nat) (st : ChatState) :
    ChatState × Str :=
  let acc2 := acc ++ d
  let newMsgs := ctx.currentMessages ++ [⟨Role.assistant, acc2, ctx.assistantTimestamp⟩]
  ({ st with
     messages := newMsgs,
     conversations := updateConversation st.conversations ctx.conversationId newMsgs tnow },
   acc2)

/-- Fold `applyDelta` over a delta sequence (each delta paired with the
`Date.now()` of its arrival). -/
def applyDeltas (ctx : SendCtx) : ChatState → Str → List (Str × Nat) → ChatState × Str
  | st, acc, [] => (st, acc)
  | st, acc, (d, t) :: rest =>
    applyDeltas ctx (applyDelta ctx acc d t st).1 (applyDelta ctx acc d t st).2 rest

theorem applyDelta_snd (ctx : SendCtx) (acc d : Str) (t : Nat) (st : ChatState) :
    (applyDelta ctx acc d t st).2 = acc ++ d := rfl

theorem applyDelta_fst_messages (ctx : SendCtx) (acc d : Str) (t : Nat) (st : ChatState) :
    (applyDelta ctx acc d t st).1.messages
      = ctx.currentMessages ++ [⟨Role.assistant, acc ++ d, ctx.assistantTimestamp⟩] := rfl

/-- The catch block of `handleSend` (lines 697–700) followed by the finally
block: surface the error, stop loading, and overwrite the store entry with
`[...messages, userMessage]` — the *pre-send* message list from the closure
plus the user message, without the assistant entry. -/
def handleSendCatch (ctx : SendCtx) (errMsg : Str) (tnow : Nat) (st : ChatState) : ChatState :=
  { st with
    error := some errMsg,
    isLoading := false,
    conversations :=
      updateConversation st.conversations ctx.conversationId
        (ctx.messages0 ++ [ctx.userMessage]) tnow }

/-- The finally block on the success path: clear the in-flight flag. -/
def handleSendFinish (st : ChatState) : ChatState := { st with isLoading := false }

/-! ## Claims C3, C4, C5: the send path -/

/-- Inversion of a send start that issued a request: the shape of the
captured closure values and of the message list after the two appends. -/
theorem handleSendStart_msgs_inv (settings : ModelSettings) (now : Nat)
    (st st1 : ChatState) (req : ChatRequest) (ctx : SendCtx)
    (h : handleSendStart settings now st = (st1, some req, some ctx)) :
    ctx.userMessage = ⟨Role.user, trimStr st.input, now⟩ ∧
    ctx.assistantTimestamp = now ∧
    ctx.messages0 = st.messages ∧
    ctx.currentMessages = st.messages ++ [ctx.userMessage] ∧
    st1.messages = ctx.currentMessages ++ [⟨Role.assistant, [], now⟩] := by
  unfold handleSendStart at h
  split at h
  · exact absurd h (by simp)
  split at h
  · exact absurd h (by simp)
  simp only [Prod.mk.injEq, Option.some.injEq] at h
  obtain ⟨hst1, -, hctx⟩ := h
  subst hst1
  subst hctx
  simp

/-- Inversion of a send start from the new-conversation state: the created
conversation entry and its id. -/
theorem handleSendStart_conv_inv (settings : ModelSettings) (now : Nat)
    (st st1 : ChatState) (req : ChatRequest) (ctx : SendCtx)
    (hcid : st.currentConversationId = none)
    (h : handleSendStart settings now st = (st1, some req, some ctx)) :
    st1.conversations =
      ⟨now, (trimStr st.input).take 15, [], now, (trimStr st.input).take 30⟩
        :: st.conversations ∧
    ctx.conversationId = now := by
  unfold handleSendStart at h
  split at h
  · exact absurd h (by simp)
  split at h
  · exact absurd h (by simp)
  rw [hcid] at h
  simp only [Prod.mk.injEq, Option.some.injEq] at h
  obtain ⟨hst1, -, hctx⟩ := h
  subst hst1
  subst hctx
  simp

/-- The delta loop keeps the displayed list equal to the captured history
plus one assistant message holding exactly the accumulator. -/
theorem applyDeltas_spec (ctx : SendCtx) (ds : List (Str × Nat)) (st : ChatState) (acc : Str)
    (hmsgs : st.messages
      = ctx.currentMessages ++ [⟨Role.assistant, acc, ctx.assistantTimestamp⟩]) :
    (applyDeltas ctx st acc ds).2 = acc ++ (ds.map Prod.fst).flatten ∧
    (applyDeltas ctx st acc ds).1.messages
      = ctx.currentMessages
          ++ [⟨Role.assistant, acc ++ (ds.map Prod.fst).flatten, ctx.assistantTimestamp⟩] := by
  induction ds generalizing st acc with
  | nil => simpa [applyDeltas] using hmsgs
  | cons dt rest ih =>
    rcases dt with ⟨d, t⟩
    simp only [applyDeltas, applyDelta_snd]
    have hstep := ih (applyDelta ctx acc d t st).1 (acc ++ d)
      (applyDelta_fst_messages ctx acc d t st)
    simpa [List.append_assoc] using hstep

/-- C3: for every delta sequence produced by the decoder during a
successful send, each delta is concatenated onto the accumulator and the
assistant placeholder's content is replaced by the full accumulator value
in yield order — after any prefix of the sequence, the displayed list is
the history plus one assistant message holding exactly the concatenation of
that prefix — and when the sequence ends normally the final assistant
content is the in-order concatenation of all deltas. -/
theorem claim3_accumulator (settings : ModelSettings) (now : Nat) (st st1 : ChatState)
    (req : ChatRequest) (ctx : SendCtx) (ds : List (Str × Nat))
    (hstart : handleSendStart settings now st = (st1, some req, some ctx)) :
    (∀ k, (applyDeltas ctx st1 [] (ds.take k)).1.messages
        = ctx.currentMessages
            ++ [⟨Role.assistant, ((ds.take k).map Prod.fst).flatten, ctx.assistantTimestamp⟩]) ∧
    (handleSendFinish (applyDeltas ctx st1 [] ds).1).messages
        = ctx.currentMessages
            ++ [⟨Role.assistant, (ds.map Prod.fst).flatten, ctx.assistantTimestamp⟩] := by
  obtain ⟨-, hts, -, -, hmsgs⟩ := handleSendStart_msgs_inv settings now st st1 req ctx hstart
  rw [← hts] at hmsgs
  constructor
  · intro k
    simpa using (applyDeltas_spec ctx (ds.take k) st1 [] (by simpa using hmsgs)).2
  · simpa [handleSendFinish] using (applyDeltas_spec ctx ds st1 [] (by simpa using hmsgs)).2

/-- Settings used by the spec's worked example. -/
def demoSettings : ModelSettings := ⟨str "glm-4-flash", str "https://x/v1", str "k"⟩

/-- The fresh state with `"Hi there"`-producing input, before any send. -/
def demoStateHello : ChatState := ⟨[], none, [], str "hello", false, none⟩

/-- The state produced by the send start of the worked example. -/
def demoSt1 : ChatState :=
  ⟨[⟨1000, str "hello", [], 1000, str "hello"⟩], some 1000,
   [⟨Role.user, str "hello", 1000⟩, ⟨Role.assistant, [], 1000⟩], [], true, none⟩

/-- The request issued by the send start of the worked example. -/
def demoReq : ChatRequest :=
  ⟨str "https://x/v1" ++ str "/chat/completions", str "glm-4-flash",
   [(Role.user, str "hello")], true, str "k"⟩

/-- The closure context captured by the send start of the worked example. -/
def demoCtx : SendCtx :=
  ⟨1000, ⟨Role.user, str "hello", 1000⟩, 1000, [], [⟨Role.user, str "hello", 1000⟩]⟩

/-- C3 witness: the spec's example — deltas `"Hi"` then `" there"` yield the
final assistant content `"Hi there"`. -/
theorem claim3_witness :
    (handleSendStart demoSettings 1000 demoStateHello = (demoSt1, some demoReq, some demoCtx)) ∧
    (handleSendFinish
        (applyDeltas demoCtx demoSt1 [] [(str "Hi", 1001), (str " there", 1002)]).1).messages
      = demoCtx.currentMessages
          ++ [⟨Role.assistant,
                (([(str "Hi", 1001), (str " there", 1002)].map Prod.fst)).flatten,
                demoCtx.assistantTimestamp⟩] :=
  ⟨by decide,
   (claim3_accumulator demoSettings 1000 demoStateHello demoSt1 demoReq demoCtx
      [(str "Hi", 1001), (str " there", 1002)] (by decide)).2⟩

/-- C4: sending a non-empty trimmed input with no active conversation and
all three settings populated creates exactly one new conversation (id = the
current time, title = first 15 characters of the trimmed input, lastMessage
= first 30 characters), appends the user message and then an empty assistant
placeholder, and issues exactly one POST to `{baseUrl}/chat/completions`
whose body has `stream: true` and whose messages are the ordered history
projected to role and content only — timestamps and the placeholder
excluded. -/
theorem claim4_send_creates_conversation (settings : ModelSettings) (now : Nat) (st : ChatState)
    (hin : trimStr st.input ≠ []) (hload : st.isLoading = false)
    (hcid : st.currentConversationId = none)
    (hname : settings.name ≠ []) (hurl : settings.baseUrl ≠ []) (hkey : settings.apiKey ≠ []) :
    handleSendStart settings now st =
      ({ st with
         conversations :=
           ⟨now, (trimStr st.input).take 15, [], now, (trimStr st.input).take 30⟩
             :: st.conversations,
         currentConversationId := some now,
         messages :=
           st.messages ++ [⟨Role.user, trimStr st.input, now⟩, ⟨Role.assistant, [], now⟩],
         input := [],
         isLoading := true,
         error := none },
       some (⟨settings.baseUrl ++ str "/chat/completions", settings.name,
         (st.messages ++ [(⟨Role.user, trimStr st.input, now⟩ : Msg)]).map
           (fun m : Msg => (m.role, m.content)),
         true, settings.apiKey⟩ : ChatRequest),
       some (⟨now, ⟨Role.user, trimStr st.input, now⟩, now, st.messages,
         st.messages ++ [⟨Role.user, trimStr st.input, now⟩]⟩ : SendCtx)) := by
  unfold handleSendStart
  rw [if_neg (by simp [hin, hload]), if_neg (by simp [hname, hurl, hkey])]
  rw [hcid]
  simp [hname]

/-- C4 witness: the spec's example — settings `glm-4-flash` at
`https://x/v1`, fresh state, input `"hello"`. -/
theorem claim4_witness :
    (trimStr demoStateHello.input ≠ [] ∧ demoStateHello.isLoading = false ∧
      demoStateHello.currentConversationId = none ∧ demoSettings.name ≠ [] ∧
      demoSettings.baseUrl ≠ [] ∧ demoSettings.apiKey ≠ []) ∧
    handleSendStart demoSettings 1000 demoStateHello =
      ({ demoStateHello with
         conversations :=
           ⟨1000, (trimStr demoStateHello.input).take 15, [], 1000,
             (trimStr demoStateHello.input).take 30⟩ :: demoStateHello.conversations,
         currentConversationId := some 1000,
         messages :=
           demoStateHello.messages
             ++ [⟨Role.user, trimStr demoStateHello.input, 1000⟩, ⟨Role.assistant, [], 1000⟩],
         input := [],
         isLoading := true,
         error := none },
       some (⟨demoSettings.baseUrl ++ str "/chat/completions", demoSettings.name,
         (demoStateHello.messages ++ [(⟨Role.user, trimStr demoStateHello.input, 1000⟩ : Msg)]).map
           (fun m : Msg => (m.role, m.content)),
         true, demoSettings.apiKey⟩ : ChatRequest),
       some (⟨1000, ⟨Role.user, trimStr demoStateHello.input, 1000⟩, 1000,
         demoStateHello.messages,
         demoStateHello.messages ++ [⟨Role.user, trimStr demoStateHello.input, 1000⟩]⟩ : SendCtx)) :=
  ⟨⟨by decide, by decide, by decide, by decide, by decide, by decide⟩,
   claim4_send_creates_conversation demoSettings 1000 demoStateHello
     (by decide) (by decide) (by decide) (by decide) (by decide) (by decide)⟩

/-! ## Claim C5: the send guards -/

/-- C5 counterexample: a send whose input is whitespace-only while the API
key is also empty.  The claim asserts every send with an empty settings
field surfaces a ConfigurationMissing condition; in the code the empty-input
guard returns first, so no error is surfaced (and no request is issued). -/
theorem claim5_counterexample :
    (handleSendStart ⟨str "glm-4-flash", str "https://x/v1", []⟩ 5
        ⟨[], none, [], str " ", false, none⟩).1.error = none ∧
    (handleSendStart ⟨str "glm-4-flash", str "https://x/v1", []⟩ 5
        ⟨[], none, [], str " ", false, none⟩).2.1 = none := by
  decide

/-- C5 amended: a send with input empty after trimming, or while a request
is in flight, is an exact no-op (state unchanged, no request, no message);
a send that passes that guard but has any of the three settings fields
empty sets the ConfigurationMissing error and issues no request and appends
no message.  (When both conditions hold, the no-op guard wins and no error
is surfaced.) -/
theorem claim5_amended_guards (settings : ModelSettings) (now : Nat) (st : ChatState) :
    ((trimStr st.input = [] ∨ st.isLoading = true) →
      handleSendStart settings now st = (st, none, none)) ∧
    (trimStr st.input ≠ [] → st.isLoading = false →
      (settings.name = [] ∨ settings.baseUrl = [] ∨ settings.apiKey = []) →
      handleSendStart settings now st
        = ({ st with error := some configErrMsg }, none, none)) := by
  constructor
  · intro h
    unfold handleSendStart
    rw [if_pos (by simpa using h)]
  · intro h1 h2 h3
    unfold handleSendStart
    rw [if_neg (by simp [h1, h2]), if_pos h3]

/-- C5 witness: a whitespace-only send leaves the state untouched, and a
send with an empty model name (but real input) surfaces the configuration
error without issuing a request. -/
theorem claim5_witness :
    handleSendStart demoSettings 5 ⟨[], none, [], str "  ", false, none⟩
      = (⟨[], none, [], str "  ", false, none⟩, none, none) ∧
    handleSendStart ⟨[], str "https://x/v1", str "k"⟩ 5 ⟨[], none, [], str "hi", false, none⟩
      = ({ (⟨[], none, [], str "hi", false, none⟩ : ChatState) with
           error := some configErrMsg }, none, none) :=
  ⟨(claim5_amended_guards demoSettings 5 _).1 (Or.inl (by decide)),
   (claim5_amended_guards ⟨[], str "https://x/v1", str "k"⟩ 5 _).2
     (by decide) (by decide) (Or.inl (by decide))⟩

/-! ## Claim C7: selecting an unknown conversation -/

/-- C7 counterexample: selecting an id absent from the store is not a
no-op — the active conversation id is overwritten with the unknown id
(`setCurrentConversationId` runs before the store lookup). -/
theorem claim7_counterexample :
    ((⟨[⟨1, str "t", [], 1, []⟩], some 1, [], [], false, none⟩ : ChatState).conversations.find?
        (fun c => c.id == 2) = none) ∧
    (selectConversation 2
        ⟨[⟨1, str "t", [], 1, []⟩], some 1, [], [], false, none⟩).currentConversationId
      = some 2 := by
  decide

/-- C7 amended: selecting an id absent from the store leaves the displayed
message list and the store unchanged and clears the error banner, but sets
the active conversation id to the unknown id. -/
theorem claim7_amended_select_unknown (conversationId : Nat) (st : ChatState)
    (h : st.conversations.find? (fun c => c.id == conversationId) = none) :
    selectConversation conversationId st
      = { st with currentConversationId := some conversationId, error := none } := by
  unfold selectConversation
  rw [h]

/-- C7 witness: the amended description at the concrete state of the
counterexample. -/
theorem claim7_witness :
    selectConversation 2 ⟨[⟨1, str "t", [], 1, []⟩], some 1, [], [], false, none⟩
      = { (⟨[⟨1, str "t", [], 1, []⟩], some 1, [], [], false, none⟩ : ChatState) with
          currentConversationId := some 2, error := none } :=
  claim7_amended_select_unknown 2 _ (by decide)

/-! ## Claim C8: the recency grouping -/

/-- Modelled from the spec: "today = timestamp within the current local
day".  For an observer whose clock runs `tz` milliseconds east of UTC, the
current local day began at epoch instant `now - ((now + tz) % 86400000)`. -/
def localDayStart (now tz : Nat) : Nat := now - ((now + tz) % 86400000)

/-- C8 counterexample: at `now` = 10000 days + 1 h after the epoch, a
conversation stamped one second before UTC midnight still lies within the
current *local* day for a UTC+8 observer, yet the code places it in the
past-week bucket, not the today bucket: the boundaries are UTC-day based
(`now - now % 86400000`), not local-day based. -/
theorem claim8_counterexample :
    localDayStart 864003600000 28800000 ≤ 863999999000 ∧
    (groupConversationsByTime [⟨1, [], [], 863999999000, []⟩] 864003600000).1 = [] ∧
    (groupConversationsByTime [⟨1, [], [], 863999999000, []⟩] 864003600000).2.1
      = [⟨1, [], [], 863999999000, []⟩] := by
  decide

/-- C8 amended: the three buckets partition the list, with boundaries at
the start of the current *UTC* day and seven days earlier: a conversation is
in the today bucket iff its timestamp is at or after `now - now % 86400000`,
in the past-week bucket iff it is within the seven days before that, and in
the older bucket otherwise; every conversation lands in exactly one bucket
(the buckets are recomputed from `now` on each call, not stored). -/
theorem claim8_amended_grouping (convs : List Conversation) (now : Nat)
    (conv : Conversation) (hmem : conv ∈ convs) :
    (conv ∈ (groupConversationsByTime convs now).1 ↔
      now - now % 86400000 ≤ conv.timestamp) ∧
    (conv ∈ (groupConversationsByTime convs now).2.1 ↔
      (now - now % 86400000 - 7 * 86400000 ≤ conv.timestamp ∧
       conv.timestamp < now - now % 86400000)) ∧
    (conv ∈ (groupConversationsByTime convs now).2.2 ↔
      conv.timestamp < now - now % 86400000 - 7 * 86400000) ∧
    ((conv ∈ (groupConversationsByTime convs now).1 ∧
        conv ∉ (groupConversationsByTime convs now).2.1 ∧
        conv ∉ (groupConversationsByTime convs now).2.2) ∨
     (conv ∉ (groupConversationsByTime convs now).1 ∧
        conv ∈ (groupConversationsByTime convs now).2.1 ∧
        conv ∉ (groupConversationsByTime convs now).2.2) ∨
     (conv ∉ (groupConversationsByTime convs now).1 ∧
        conv ∉ (groupConversationsByTime convs now).2.1 ∧
        conv ∈ (groupConversationsByTime convs now).2.2)) := by
  have h1 : conv ∈ (groupConversationsByTime convs now).1 ↔
      now - now % 86400000 ≤ conv.timestamp := by
    simp [groupConversationsByTime, List.mem_filter, hmem]
  have h2 : conv ∈ (groupConversationsByTime convs now).2.1 ↔
      (now - now % 86400000 - 7 * 86400000 ≤ conv.timestamp ∧
       conv.timestamp < now - now % 86400000) := by
    simp [groupConversationsByTime, List.mem_filter, hmem]
  have h3 : conv ∈ (groupConversationsByTime convs now).2.2 ↔
      conv.timestamp < now - now % 86400000 - 7 * 86400000 := by
    simp [groupConversationsByTime, List.mem_filter, hmem]
  refine ⟨h1, h2, h3, ?_⟩
  rw [h1, h2, h3]
  omega

/-- C8 witness: a conversation stamped at `now` itself lands in the today
bucket and in no other. -/
theorem claim8_witness :
    (⟨1, [], [], 864003600000, []⟩ : Conversation)
        ∈ (groupConversationsByTime [⟨1, [], [], 864003600000, []⟩] 864003600000).1 ∧
    (⟨1, [], [], 864003600000, []⟩ : Conversation)
        ∉ (groupConversationsByTime [⟨1, [], [], 864003600000, []⟩] 864003600000).2.1 ∧
    (⟨1, [], [], 864003600000, []⟩ : Conversation)
        ∉ (groupConversationsByTime [⟨1, [], [], 864003600000, []⟩] 864003600000).2.2 := by
  have h := claim8_amended_grouping [⟨1, [], [], 864003600000, []⟩] 864003600000
    ⟨1, [], [], 864003600000, []⟩ (by decide)
  refine ⟨h.1.mpr (by decide), ?_, ?_⟩
  · intro hm
    exact absurd (h.2.1.mp hm).2 (by decide)
  · intro hm
    exact absurd (h.2.2.1.mp hm) (by decide)

/-! ## Claims C9, C10, C6: store order, title recomputation, error path -/

/-- `updateConversation` rewrites entries in place: ids and positions are
unchanged. -/
theorem updateConversation_ids (convs : List Conversation) (conversationId : Nat)
    (newMessages : List Msg) (tnow : Nat) :
    (updateConversation convs conversationId newMessages tnow).map (fun c => c.id)
      = convs.map (fun c => c.id) := by
  induction convs with
  | nil => rfl
  | cons c cs ih =>
    by_cases h : c.id = conversationId <;>
      simpa [updateConversation, h] using congrArg (List.cons c.id) ih

/-- The delta loop never changes which conversations are in the store or
their order. -/
theorem applyDeltas_ids (ctx : SendCtx) (ds : List (Str × Nat)) (st : ChatState) (acc : Str) :
    (applyDeltas ctx st acc ds).1.conversations.map (fun c => c.id)
      = st.conversations.map (fun c => c.id) := by
  induction ds generalizing st acc with
  | nil => rfl
  | cons dt rest ih =>
    rcases dt with ⟨d, t⟩
    simp only [applyDeltas]
    rw [ih]
    exact updateConversation_ids _ _ _ _

/-- A state reachable through the real operations in which the most
recently updated conversation is *not* first: send "a" at t=3 (store
`[c3]`), new conversation, send "b" at t=5 (store `[c5, c3]`), select `c3`,
send "c" at t=9 and receive one delta — the per-delta `updateConversation`
stamps `c3` with t=9 but leaves it in second position. -/
def c9State : ChatState :=
  let st0 : ChatState := ⟨[], none, [], str "a", false, none⟩
  let s1 := (handleSendStart demoSettings 3 st0).1
  let s2 := { createNewConversation (handleSendFinish s1) with input := str "b" }
  let s3 := (handleSendStart demoSettings 5 s2).1
  let s4 := { selectConversation 3 (handleSendFinish s3) with input := str "c" }
  match handleSendStart demoSettings 9 s4 with
  | (s5, _, some ctx) => (applyDeltas ctx s5 [] [(str "z", 9)]).1
  | (s5, _, none) => s5

/-- C9 counterexample: in `c9State` the store is `[(id 5, updated at 5),
(id 3, updated at 9)]` — the most recently updated conversation is second,
so the exposed list is not ordered by recency of last update. -/
theorem claim9_counterexample :
    c9State.conversations.map (fun c => (c.id, c.timestamp)) = [(5, 5), (3, 9)] ∧
    ¬ List.Chain' (fun a b : Conversation => b.timestamp ≤ a.timestamp)
        c9State.conversations := by
  constructor
  · decide
  · intro h
    have h2 := List.chain'_iff_get.mp h 0 (by decide)
    revert h2
    decide

/-- C9 amended: creation prepends the new conversation, and every
`updateConversation` (per-delta, completion, error) rewrites its entry in
place, preserving the order of the list: the store is ordered by recency of
*creation*, and an update to a non-first conversation leaves the list
unsorted by last-update time. -/
theorem claim9_amended_order (convs : List Conversation) (conversationId : Nat)
    (newMessages : List Msg) (tnow : Nat) :
    (updateConversation convs conversationId newMessages tnow).map (fun c => c.id)
      = convs.map (fun c => c.id) ∧
    (∀ (settings : ModelSettings) (now : Nat) (st st1 : ChatState)
        (req : ChatRequest) (ctx : SendCtx),
      st.currentConversationId = none →
      handleSendStart settings now st = (st1, some req, some ctx) →
      st1.conversations.map (fun c => c.id)
        = now :: st.conversations.map (fun c => c.id)) := by
  refine ⟨updateConversation_ids convs conversationId newMessages tnow, ?_⟩
  intro settings now st st1 req ctx hcid h
  obtain ⟨hconvs, -⟩ := handleSendStart_conv_inv settings now st st1 req ctx hcid h
  rw [hconvs]
  simp

/-- C9 witness: an in-place update keeps ids `[5, 3]` in place, and the
worked-example send prepends id 1000 to the empty store. -/
theorem claim9_witness :
    (updateConversation [⟨5, str "b", [], 5, []⟩, ⟨3, str "a", [], 3, []⟩] 3
        [⟨Role.user, str "c", 9⟩] 9).map (fun c => c.id) = [5, 3] ∧
    demoSt1.conversations.map (fun c => c.id)
      = 1000 :: demoStateHello.conversations.map (fun c => c.id) :=
  ⟨(claim9_amended_order [⟨5, str "b", [], 5, []⟩, ⟨3, str "a", [], 3, []⟩] 3
      [⟨Role.user, str "c", 9⟩] 9).1,
   (claim9_amended_order [] 0 [] 0).2 demoSettings 1000 demoStateHello demoSt1 demoReq demoCtx
     (by decide) (by decide)⟩

/-- The title `updateConversation` computes from a message list: the first
15 characters of the first user message, or the default `新对话` when there
is no user message or its content is empty. -/
def computedTitle (newMessages : List Msg) : Str :=
  match newMessages.find? (fun m => m.role == Role.user) with
  | some m => if m.content.take 15 = [] then newChatTitle else m.content.take 15
  | none => newChatTitle

/-- C10 counterexample: a list whose first user message has empty content.
The claim predicts the title becomes its first 15 characters, i.e. the
empty string; the code's `|| '新对话'` also fires on the empty slice, so the
title becomes `新对话` instead. -/
theorem claim10_counterexample :
    (updateConversation [⟨1, str "old", [], 1, []⟩] 1 [⟨Role.user, [], 5⟩] 5).map
        (fun c => c.title) = [newChatTitle] ∧
    newChatTitle ≠ ([] : Str) := by
  decide

/-- Every entry of the updated store carrying the target id has the
recomputed title. -/
theorem updateConversation_mem_title (convs : List Conversation) (conversationId : Nat)
    (newMessages : List Msg) (tnow : Nat) :
    ∀ conv ∈ updateConversation convs conversationId newMessages tnow,
      conv.id = conversationId → conv.title = computedTitle newMessages := by
  induction convs with
  | nil => simp [updateConversation]
  | cons c cs ih =>
    intro conv hmem hid
    by_cases h : c.id = conversationId
    · simp only [updateConversation, List.map_cons, if_pos h] at hmem
      rcases List.mem_cons.mp hmem with heq | hmem2
      · rw [heq]
        simp [computedTitle]
      · exact ih conv hmem2 hid
    · simp only [updateConversation, List.map_cons, if_neg h] at hmem
      rcases List.mem_cons.mp hmem with heq | hmem2
      · rw [heq] at hid
        exact absurd hid h
      · exact ih conv hmem2 hid

/-- C10 amended: `updateConversation` sets the target entry's title from
the message list alone — first 15 characters of the first user message,
falling back to `新对话` when there is no user message *or its content is
empty* — regardless of the stored title; consequently a rename followed by
any `updateConversation` of the same conversation gives exactly the state
an update without the rename would give. -/
theorem claim10_amended_title (convs : List Conversation) (conversationId : Nat)
    (newMessages : List Msg) (newTitle : Str) (tnow : Nat) :
    updateConversation (renameConversation convs conversationId newTitle)
        conversationId newMessages tnow
      = updateConversation convs conversationId newMessages tnow ∧
    (∀ conv ∈ updateConversation convs conversationId newMessages tnow,
      conv.id = conversationId → conv.title = computedTitle newMessages) := by
  refine ⟨?_, updateConversation_mem_title convs conversationId newMessages tnow⟩
  unfold updateConversation renameConversation
  rw [List.map_map]
  apply List.map_congr_left
  intro a _
  by_cases h : a.id = conversationId <;> simp [h]

/-- C10 witness: renaming and then updating equals updating alone, and the
updated entry's title is the first 15 characters of the first user
message. -/
theorem claim10_witness :
    (updateConversation (renameConversation [⟨1, str "old", [], 1, []⟩] 1 (str "renamed")) 1
        [⟨Role.user, str "hello there everyone", 5⟩] 5
      = updateConversation [⟨1, str "old", [], 1, []⟩] 1
          [⟨Role.user, str "hello there everyone", 5⟩] 5) ∧
    (⟨1, (str "hello there everyone").take 15,
        [⟨Role.user, str "hello there everyone", 5⟩], 5,
        (str "hello there everyone").take 30⟩ : Conversation).title
      = computedTitle [⟨Role.user, str "hello there everyone", 5⟩] :=
  ⟨(claim10_amended_title [⟨1, str "old", [], 1, []⟩] 1
      [⟨Role.user, str "hello there everyone", 5⟩] (str "renamed") 5).1,
   (claim10_amended_title [⟨1, str "old", [], 1, []⟩] 1
      [⟨Role.user, str "hello there everyone", 5⟩] (str "renamed") 5).2
     ⟨1, (str "hello there everyone").take 15,
        [⟨Role.user, str "hello there everyone", 5⟩], 5,
        (str "hello there everyone").take 30⟩
     (by decide) (by decide)⟩

/-- Every entry of the updated store carrying the target id holds exactly
the written message list. -/
theorem updateConversation_mem_messages (convs : List Conversation) (conversationId : Nat)
    (newMessages : List Msg) (tnow : Nat) :
    ∀ conv ∈ updateConversation convs conversationId newMessages tnow,
      conv.id = conversationId → conv.messages = newMessages := by
  induction convs with
  | nil => simp [updateConversation]
  | cons c cs ih =>
    intro conv hmem hid
    by_cases h : c.id = conversationId
    · simp only [updateConversation, List.map_cons, if_pos h] at hmem
      rcases List.mem_cons.mp hmem with heq | hmem2
      · rw [heq]
      · exact ih conv hmem2 hid
    · simp only [updateConversation, List.map_cons, if_neg h] at hmem
      rcases List.mem_cons.mp hmem with heq | hmem2
      · rw [heq] at hid
        exact absurd hid h
      · exact ih conv hmem2 hid

/-- When the target id occurs in the store, the updated store's lookup
returns an entry with exactly the written message list. -/
theorem updateConversation_find?_messages (convs : List Conversation) (conversationId : Nat)
    (newMessages : List Msg) (tnow : Nat)
    (hmem : conversationId ∈ convs.map (fun c => c.id)) :
    ((updateConversation convs conversationId newMessages tnow).find?
        (fun c => c.id == conversationId)).map (fun c => c.messages)
      = some newMessages := by
  induction convs with
  | nil => simp at hmem
  | cons c cs ih =>
    by_cases h : c.id = conversationId
    · simp [updateConversation, List.find?, h]
    · have hmem2 : conversationId ∈ cs.map (fun c => c.id) := by
        simp only [List.map_cons, List.mem_cons] at hmem
        rcases hmem with h1 | h1
        · exact absurd h1.symm h
        · exact h1
      simp only [updateConversation, List.map_cons, if_neg h] at ih ⊢
      rw [List.find?_cons_of_neg _ (by simpa using h)]
      exact ih hmem2

/-- Inversion of a send start from a selected conversation: the send
targets exactly the selected id and the store entries are untouched by the
start. -/
theorem handleSendStart_conv_inv_some (settings : ModelSettings) (now : Nat)
    (st st1 : ChatState) (req : ChatRequest) (ctx : SendCtx) (cid0 : Nat)
    (hcid : st.currentConversationId = some cid0)
    (h : handleSendStart settings now st = (st1, some req, some ctx)) :
    ctx.conversationId = cid0 ∧ st1.conversations = st.conversations := by
  unfold handleSendStart at h
  split at h
  · exact absurd h (by simp)
  split at h
  · exact absurd h (by simp)
  rw [hcid] at h
  simp only [Prod.mk.injEq, Option.some.injEq] at h
  obtain ⟨hst1, -, hctx⟩ := h
  subst hst1
  subst hctx
  simp

theorem handleSendCatch_conversations (ctx : SendCtx) (errMsg : Str) (tnow : Nat)
    (st : ChatState) :
    (handleSendCatch ctx errMsg tnow st).conversations
      = updateConversation st.conversations ctx.conversationId
          (ctx.messages0 ++ [ctx.userMessage]) tnow := rfl

theorem handleSendCatch_messages (ctx : SendCtx) (errMsg : Str) (tnow : Nat)
    (st : ChatState) :
    (handleSendCatch ctx errMsg tnow st).messages = st.messages := rfl

/-- C6 counterexample: a send from the worked-example state receives the
delta `"He"` and then fails.  The persisted conversation keeps only the
user message — the partially accumulated assistant content `"He"`, although
still rendered in the live message list, is *not* preserved in the
conversation entry (the catch block writes the pre-send closure messages
plus the user message). -/
theorem claim6_counterexample :
    ((handleSendCatch demoCtx (str "网络错误") 1003
        (applyDeltas demoCtx demoSt1 [] [(str "He", 1001)]).1).conversations.map
          (fun c => c.messages)
      = [[⟨Role.user, str "hello", 1000⟩]]) ∧
    ((handleSendCatch demoCtx (str "网络错误") 1003
        (applyDeltas demoCtx demoSt1 [] [(str "He", 1001)]).1).messages
      = [⟨Role.user, str "hello", 1000⟩, ⟨Role.assistant, str "He", 1000⟩]) := by
  decide

/-- C6 amended: every error after the request is issued (non-2xx status,
missing body stream, network/read failure) is terminal for the send and is
surfaced as the error banner, while the live rendered list keeps the
partially accumulated assistant content.  The persisted entry of the active
conversation — the freshly created one, or the selected existing one — is
rewritten to the pre-send messages plus the user message: the user message
is kept, but the assistant placeholder and any partial content are dropped
from the persisted conversation.  (When the active id is absent from the
store, reachable by selecting an unknown id, the rewrite touches no
entry.)  Stated for every erroring send: conjuncts give the banner and
flag, the entry rewrite for every stored conversation carrying the active
id, the lookup result whenever the active id is present in the store, that
a fresh-conversation send always puts it there, and that a send into a
selected conversation targets exactly the selected id with the store
entries unchanged at start. -/
theorem claim6_amended_error_path (settings : ModelSettings) (now : Nat)
    (st st1 : ChatState) (req : ChatRequest) (ctx : SendCtx) (ds : List (Str × Nat))
    (errMsg : Str) (t2 : Nat)
    (hstart : handleSendStart settings now st = (st1, some req, some ctx)) :
    (handleSendCatch ctx errMsg t2 (applyDeltas ctx st1 [] ds).1).error = some errMsg ∧
    (handleSendCatch ctx errMsg t2 (applyDeltas ctx st1 [] ds).1).isLoading = false ∧
    (∀ conv ∈ (handleSendCatch ctx errMsg t2 (applyDeltas ctx st1 [] ds).1).conversations,
      conv.id = ctx.conversationId →
        conv.messages = st.messages ++ [ctx.userMessage]) ∧
    (ctx.conversationId ∈ st1.conversations.map (fun c => c.id) →
      ((handleSendCatch ctx errMsg t2 (applyDeltas ctx st1 [] ds).1).conversations.find?
          (fun c => c.id == ctx.conversationId)).map (fun c => c.messages)
        = some (st.messages ++ [ctx.userMessage])) ∧
    (st.currentConversationId = none →
      ctx.conversationId ∈ st1.conversations.map (fun c => c.id)) ∧
    (∀ cid0, st.currentConversationId = some cid0 →
      ctx.conversationId = cid0 ∧ st1.conversations = st.conversations) ∧
    (handleSendCatch ctx errMsg t2 (applyDeltas ctx st1 [] ds).1).messages
      = ctx.currentMessages
          ++ [⟨Role.assistant, (ds.map Prod.fst).flatten, ctx.assistantTimestamp⟩] := by
  obtain ⟨-, hts, hm0, -, hmsgs⟩ := handleSendStart_msgs_inv settings now st st1 req ctx hstart
  rw [← hts] at hmsgs
  have hspec := applyDeltas_spec ctx ds st1 [] (by simpa using hmsgs)
  refine ⟨rfl, rfl, ?_, ?_, ?_, ?_, ?_⟩
  · rw [handleSendCatch_conversations]
    intro conv hmem hid
    rw [updateConversation_mem_messages _ _ _ _ conv hmem hid, hm0]
  · intro hin
    have hids : (applyDeltas ctx st1 [] ds).1.conversations.map (fun c => c.id)
        = st1.conversations.map (fun c => c.id) := applyDeltas_ids ctx ds st1 []
    rw [handleSendCatch_conversations,
      updateConversation_find?_messages _ _ _ _ (hids ▸ hin), hm0]
  · intro hcid
    obtain ⟨hconvs, hcid2⟩ := handleSendStart_conv_inv settings now st st1 req ctx hcid hstart
    rw [hconvs, hcid2]
    simp
  · intro cid0 hcid
    exact handleSendStart_conv_inv_some settings now st st1 req ctx cid0 hcid hstart
  · rw [handleSendCatch_messages]
    simpa using hspec.2

/-- A state with an existing selected conversation (id 1, one user message
`"old"`) and the input `"again"` ready to send. -/
def demoStExisting : ChatState :=
  ⟨[⟨1, str "t", [⟨Role.user, str "old", 1⟩], 1, []⟩], some 1,
   [⟨Role.user, str "old", 1⟩], str "again", false, none⟩

/-- The state produced by the send start from `demoStExisting` at t=2000. -/
def demoSt1E : ChatState :=
  ⟨[⟨1, str "t", [⟨Role.user, str "old", 1⟩], 1, []⟩], some 1,
   [⟨Role.user, str "old", 1⟩, ⟨Role.user, str "again", 2000⟩, ⟨Role.assistant, [], 2000⟩],
   [], true, none⟩

/-- The request issued by the send start from `demoStExisting`. -/
def demoReqE : ChatRequest :=
  ⟨str "https://x/v1" ++ str "/chat/completions", str "glm-4-flash",
   [(Role.user, str "old"), (Role.user, str "again")], true, str "k"⟩

/-- The closure context captured by the send start from `demoStExisting`. -/
def demoCtxE : SendCtx :=
  ⟨1, ⟨Role.user, str "again", 2000⟩, 2000, [⟨Role.user, str "old", 1⟩],
   [⟨Role.user, str "old", 1⟩, ⟨Role.user, str "again", 2000⟩]⟩

/-- C6 witness: the amended description at two concrete runs — a send that
created a fresh conversation (delta `"He"`, then failure at t=1003: banner
set, persisted entry holds only the user message, live list keeps the
partial content) and a send into the existing selected conversation of
`demoStExisting` (failure at t=2003: persisted entry holds the old history
plus the new user message, without the assistant entry). -/
theorem claim6_witness :
    (handleSendCatch demoCtx (str "网络错误") 1003
        (applyDeltas demoCtx demoSt1 [] [(str "He", 1001)]).1).error = some (str "网络错误") ∧
    (((handleSendCatch demoCtx (str "网络错误") 1003
        (applyDeltas demoCtx demoSt1 [] [(str "He", 1001)]).1).conversations.find?
          (fun c => c.id == demoCtx.conversationId)).map (fun c => c.messages)
      = some (demoStateHello.messages ++ [demoCtx.userMessage])) ∧
    (handleSendCatch demoCtx (str "网络错误") 1003
        (applyDeltas demoCtx demoSt1 [] [(str "He", 1001)]).1).messages
      = demoCtx.currentMessages
          ++ [⟨Role.assistant, ([(str "He", 1001)].map Prod.fst).flatten,
                demoCtx.assistantTimestamp⟩] ∧
    (((handleSendCatch demoCtxE (str "网络错误") 2003
        (applyDeltas demoCtxE demoSt1E [] [(str "He", 2001)]).1).conversations.find?
          (fun c => c.id == demoCtxE.conversationId)).map (fun c => c.messages)
      = some (demoStExisting.messages ++ [demoCtxE.userMessage])) :=
  have h1 := claim6_amended_error_path demoSettings 1000 demoStateHello demoSt1 demoReq
    demoCtx [(str "He", 1001)] (str "网络错误") 1003 (by decide)
  have h2 := claim6_amended_error_path demoSettings 2000 demoStExisting demoSt1E demoReqE
    demoCtxE [(str "He", 2001)] (str "网络错误") 2003 (by decide)
  ⟨h1.1,
   h1.2.2.2.1 (h1.2.2.2.2.1 (by decide)),
   h1.2.2.2.2.2.2,
   h2.2.2.2.1 (by decide)⟩

end AiRobot
